import Mathlib

/-!
Shallow embedding of the photo-annotation engine (the raster/snapshot
PhotoEditor component): the tool state machine, the bounded snapshot
history store, the render discipline for pen and shape previews, the
exporter hand-off, and the pure fit and geometry computations, together
with theorems settling the specification claims about them.
-/

namespace PhotoEditor

/-- The drawing tools, from the Tool enum of the source. -/
inductive Tool
  | PEN
  | CIRCLE
  | ARROW
  deriving DecidableEq

/-- A canvas-space point (model coordinates). -/
structure Point where
  x : Int
  y : Int
  deriving DecidableEq

/-- Symbolic pixel content of the Canvas Surface: the free algebra of the
painting operations the component performs.  getImageData and putImageData
are pixel-exact, so a history Snapshot is represented by the same value as
the content it copied; equal values denote pixel-identical surfaces.
A stroked term records a stroke() of the whole open path with the context
stroke style; circled and arrowed record the one-shot shape strokes of the
circle and arrow branches of draw, determined by anchor, current point and
the active color. -/
inductive Content
  | blank
  | image (id : Nat)
  | stroked (base : Content) (p : List Point) (style : String)
  | circled (base : Content) (anchor cur : Point) (style : String)
  | arrowed (base : Content) (anchor cur : Point) (style : String)
  deriving DecidableEq

/-- The React state of PhotoEditor together with the 2d-context pieces the
handlers use: the current canvas pixels, the open path built by
beginPath/moveTo/lineTo, and the context strokeStyle. -/
structure EditorState where
  canvas : Content
  history : List Content
  isDrawing : Bool
  startPos : Point
  activeTool : Tool
  color : String
  path : List Point
  ctxStyle : String
  deriving DecidableEq

/-- The history update of saveState:
setHistory(prev => [...prev.slice(-9), ctx.getImageData(...)]).
JavaScript slice(-9) keeps the last nine entries (all of them when there
are fewer), so the store is capped at ten snapshots. -/
def pushSnap (h : List Content) (c : Content) : List Content :=
  h.drop (h.length - 9) ++ [c]

/-- saveState: captures the current canvas pixels and pushes them. -/
def saveState (s : EditorState) : EditorState :=
  { s with history := pushSnap s.history s.canvas }

/-- handleUndo: returns unchanged when at most one entry is stored;
otherwise pops the most recent snapshot and repaints the canvas from the
new most recent one (the putImageData call is guarded on that snapshot
being present, as in the source). -/
def handleUndo (s : EditorState) : EditorState :=
  if s.history.length ≤ 1 then s
  else
    match (s.history.dropLast).getLast? with
    | some previousState =>
        { s with history := s.history.dropLast, canvas := previousState }
    | none => { s with history := s.history.dropLast }

/-- startDrawing: flags the gesture active, records the anchor, begins a
fresh path at it and sets the context stroke style to the active color.
There is no guard on isDrawing in the source. -/
def startDrawing (pos : Point) (s : EditorState) : EditorState :=
  { s with isDrawing := true, startPos := pos, path := [pos],
           ctxStyle := s.color }

/-- The base the shape branches restore from:
const lastState = history[history.length - 1]; if (lastState) putImageData.
When the store is empty no restore happens and drawing lands on the
current canvas. -/
def restoreBase (s : EditorState) : Content :=
  match s.history.getLast? with
  | some lastState => lastState
  | none => s.canvas

/-- draw: ignored unless a gesture is active.  Pen appends to the open
path and strokes it onto the live canvas.  Circle and Arrow first restore
the most recent snapshot and then stroke exactly one shape computed from
(startPos, currentPos) in the active color; their beginPath discards the
open polyline (the arc/chevron path they leave open is never re-stroked
and is modelled as empty). -/
def draw (cur : Point) (s : EditorState) : EditorState :=
  if s.isDrawing then
    match s.activeTool with
    | Tool.PEN =>
        { s with path := s.path ++ [cur],
                 canvas := Content.stroked s.canvas (s.path ++ [cur]) s.ctxStyle }
    | Tool.CIRCLE =>
        { s with canvas := Content.circled (restoreBase s) s.startPos cur s.color,
                 path := [], ctxStyle := s.color }
    | Tool.ARROW =>
        { s with canvas := Content.arrowed (restoreBase s) s.startPos cur s.color,
                 path := [], ctxStyle := s.color }
  else s

/-- stopDrawing (fired on mouse-up, mouse-leave and touch-end alike):
when a gesture is active, ends it and commits the current canvas pixels
as a new snapshot. -/
def stopDrawing (s : EditorState) : EditorState :=
  if s.isDrawing then saveState { s with isDrawing := false } else s

/-- The discrete input events the component handles. -/
inductive Event
  | load (id : Nat)
  | down (pos : Point)
  | move (pos : Point)
  | up
  | undo
  | setTool (t : Tool)
  | setColor (c : String)

/-- One step of the editor: the image-load effect draws the fitted image
and saves the initial snapshot; the remaining events dispatch to the
handlers wired on the canvas element and the toolbar buttons. -/
def step (s : EditorState) : Event → EditorState
  | Event.load id => saveState { s with canvas := Content.image id }
  | Event.down pos => startDrawing pos s
  | Event.move pos => draw pos s
  | Event.up => stopDrawing s
  | Event.undo => handleUndo s
  | Event.setTool t => { s with activeTool := t }
  | Event.setColor c => { s with color := c }

/-- Run a sequence of events. -/
def run (s : EditorState) (es : List Event) : EditorState :=
  es.foldl step s

/-- The initial React state: empty history, no gesture, pen tool, red. -/
def initState : EditorState :=
  { canvas := Content.blank, history := [], isDrawing := false,
    startPos := ⟨0, 0⟩, activeTool := Tool.PEN, color := "#FF0000",
    path := [], ctxStyle := "#000000" }

/-- The single preview shape a Circle or Arrow move frame paints over the
restored snapshot (assembled from the same constructors draw uses). -/
def previewShape (t : Tool) (base : Content) (anchor cur : Point)
    (style : String) : Content :=
  match t with
  | Tool.PEN => base
  | Tool.CIRCLE => Content.circled base anchor cur style
  | Tool.ARROW => Content.arrowed base anchor cur style

/-- A quiescent editor state over one committed snapshot, used to
instantiate the claim theorems on concrete inputs. -/
def demoState : EditorState :=
  { canvas := Content.image 0, history := [Content.image 0],
    isDrawing := false, startPos := ⟨0, 0⟩, activeTool := Tool.CIRCLE,
    color := "#FF0000", path := [], ctxStyle := "#FF0000" }

/-- A state with an active gesture anchored at the origin, used to
instantiate the gesture-start theorems on concrete inputs. -/
def gesturingState : EditorState :=
  { demoState with isDrawing := true, startPos := ⟨0, 0⟩, path := [⟨0, 0⟩] }

/-- An opaque serialized payload produced by canvas.toBlob. -/
structure Blob where
  id : Nat
  deriving DecidableEq

/-- The calls the editor can make to its host through its props. -/
inductive HostCall
  | onSave (b : Blob)
  | onCancel
  deriving DecidableEq

/-- handleSave: canvas.toBlob hands the callback an optional payload; the
callback invokes onSave only when a payload was produced, and otherwise
does nothing.  The result lists the host calls made for a given
serialization result. -/
def handleSave (r : Option Blob) : List HostCall :=
  match r with
  | some b => [HostCall.onSave b]
  | none => []

/-- The image-load fit computation: scales down, uniformly by
min(maxWidth/width, maxHeight/height), only when the image exceeds the
viewport in some dimension; otherwise keeps the raw image dimensions. -/
def fitSize (imgW imgH maxW maxH : ℚ) : ℚ × ℚ :=
  if imgW > maxW ∨ imgH > maxH then
    let r := min (maxW / imgW) (maxH / imgH)
    (imgW * r, imgH * r)
  else (imgW, imgH)

/-- Modelled from the spec sentence the claim cites: the canvas dimensions
equal the image dimensions multiplied uniformly by
scale = min(maxW/imgW, maxH/imgH), unconditionally. -/
def specFitSize (imgW imgH maxW maxH : ℚ) : ℚ × ℚ :=
  (imgW * min (maxW / imgW) (maxH / imgH),
   imgH * min (maxW / imgW) (maxH / imgH))

/-- A point of the real plane, for the shape geometry computations. -/
structure RPoint where
  x : ℝ
  y : ℝ

/-- Math.atan2(y, x): the argument of the complex number x + i y,
valued in (-pi, pi]. -/
noncomputable def atan2 (y x : ℝ) : ℝ :=
  Complex.arg ⟨x, y⟩

/-- The arrow base angle of the source:
Math.atan2(currentPos.y - startPos.y, currentPos.x - startPos.x). -/
noncomputable def arrowAngle (s c : RPoint) : ℝ :=
  atan2 (c.y - s.y) (c.x - s.x)

/-- The fixed chevron length of the arrow head (headLen = 15). -/
def headLen : ℝ := 15

/-- End point of the first chevron segment drawn from the arrow tip:
(cx - headLen*cos(angle - pi/6), cy - headLen*sin(angle - pi/6)). -/
noncomputable def chevron1 (s c : RPoint) : RPoint :=
  ⟨c.x - headLen * Real.cos (arrowAngle s c - Real.pi / 6),
   c.y - headLen * Real.sin (arrowAngle s c - Real.pi / 6)⟩

/-- End point of the second chevron segment drawn from the arrow tip:
(cx - headLen*cos(angle + pi/6), cy - headLen*sin(angle + pi/6)). -/
noncomputable def chevron2 (s c : RPoint) : RPoint :=
  ⟨c.x - headLen * Real.cos (arrowAngle s c + Real.pi / 6),
   c.y - headLen * Real.sin (arrowAngle s c + Real.pi / 6)⟩

/-- The circle radius of the source:
Math.sqrt((currentPos.x - startPos.x)^2 + (currentPos.y - startPos.y)^2). -/
noncomputable def circleRadius (s c : RPoint) : ℝ :=
  Real.sqrt ((c.x - s.x) ^ 2 + (c.y - s.y) ^ 2)

/-- The circle center of the source: ctx.arc(startPos.x, startPos.y, ...). -/
def circleCenter (s c : RPoint) : RPoint := s

lemma getLastNoneNil {l : List Content} (h : l.getLast? = none) : l = [] := by
  cases l with
  | nil => rfl
  | cons a t => simp [List.getLast?] at h

/-- C3: with at least two stored snapshots, undo removes the most recent
one and repaints the Canvas Surface from the new most recent one; with at
most one entry it is a strict no-op, so repeated undo at the floor never
changes the canvas and the store never drops below one entry. -/
theorem undo_contract :
    (∀ (s : EditorState) (snap : Content), 2 ≤ s.history.length →
        (s.history.dropLast).getLast? = some snap →
        handleUndo s = { s with history := s.history.dropLast, canvas := snap }) ∧
    (∀ s : EditorState, s.history.length ≤ 1 → handleUndo s = s) ∧
    (∀ (s : EditorState) (n : ℕ), s.history.length ≤ 1 → handleUndo^[n] s = s) ∧
    (∀ s : EditorState, 1 ≤ s.history.length →
        1 ≤ (handleUndo s).history.length) := by
  refine ⟨?_, ?_, ?_, ?_⟩
  · intro s snap h2 hl
    unfold handleUndo
    rw [if_neg (by omega), hl]
  · intro s h1
    unfold handleUndo
    rw [if_pos h1]
  · intro s n h1
    induction n with
    | zero => rfl
    | succ k ih =>
        rw [Function.iterate_succ_apply]
        have hs : handleUndo s = s := by unfold handleUndo; rw [if_pos h1]
        rw [hs, ih]
  · intro s h1
    unfold handleUndo
    by_cases hc : s.history.length ≤ 1
    · rw [if_pos hc]; exact h1
    · rw [if_neg hc]
      split <;> simp [List.length_dropLast] <;> omega

/-- Concrete instantiation of the undo contract: undoing over a two-entry
store pops to the first snapshot, and undoing over a one-entry store is a
no-op. -/
theorem undo_contract_witness :
    handleUndo { demoState with history := [Content.image 0, Content.image 1] }
      = { demoState with history := [Content.image 0], canvas := Content.image 0 } ∧
    handleUndo demoState = demoState :=
  ⟨undo_contract.1 _ (Content.image 0) (by decide) (by decide),
   undo_contract.2.1 demoState (by decide)⟩

lemma foldl_pushSnap_window :
    ∀ (k : ℕ) (cs h0 : List Content), cs.length = k → 1 ≤ k → k ≤ 10 →
      cs.foldl pushSnap h0 = h0.drop (h0.length + k - 10) ++ cs := by
  intro k
  induction k with
  | zero => intro cs h0 _ h1 _; omega
  | succ m ih =>
      intro cs h0 hlen h1 h10
      rcases List.eq_nil_or_concat cs with rfl | ⟨l, c, rfl⟩
      · simp at hlen
      · have hl : l.length = m := by
          have hx := hlen
          simp [List.length_append] at hx
          omega
        by_cases hm : m = 0
        · subst hm
          have hl0 : l = [] := List.eq_nil_of_length_eq_zero hl
          subst hl0
          have e : h0.length + (0 + 1) - 10 = h0.length - 9 := by omega
          simp [pushSnap, e]
        · have ihl := ih l h0 hl (by omega) (by omega)
          rw [List.concat_eq_append, List.foldl_append, ihl]
          simp only [List.foldl_cons, List.foldl_nil]
          unfold pushSnap
          rw [List.drop_append_eq_append_drop, List.drop_drop]
          have hdl : (h0.drop (h0.length + m - 10)).length
              = h0.length - (h0.length + m - 10) := List.length_drop _ _
          have hsl : (h0.drop (h0.length + m - 10) ++ l).length
              = (h0.length - (h0.length + m - 10)) + m := by
            rw [List.length_append, hdl, hl]
          rw [hsl, hdl]
          have e1 : ((h0.length - (h0.length + m - 10)) + m - 9)
                - (h0.length - (h0.length + m - 10)) = 0 := by omega
          have e2 : (h0.length + m - 10)
                + ((h0.length - (h0.length + m - 10)) + m - 9)
                = h0.length + (m + 1) - 10 := by omega
          rw [e1, e2, List.drop_zero, List.append_assoc]

lemma foldl_pushSnap_ten (cs h0 : List Content) (hlen : cs.length = 10) :
    cs.foldl pushSnap h0 = cs := by
  have h := foldl_pushSnap_window 10 cs h0 hlen (by omega) (by omega)
  simpa [List.drop_length] using h

lemma foldl_pushSnap_cap :
    ∀ (cs h0 : List Content), 10 ≤ cs.length →
      cs.foldl pushSnap h0 = cs.drop (cs.length - 10) := by
  intro cs
  induction cs with
  | nil => intro h0 h; simp at h
  | cons c l ih =>
      intro h0 h
      by_cases h10 : (c :: l).length = 10
      · rw [foldl_pushSnap_ten _ h0 h10, h10]
        simp
      · have hl10 : 10 ≤ l.length := by
          simp [List.length_cons] at h h10 ⊢
          omega
        have hstep : (c :: l).foldl pushSnap h0 = l.foldl pushSnap (pushSnap h0 c) := rfl
        rw [hstep, ih (pushSnap h0 c) hl10]
        have e : (c :: l).length - 10 = (l.length - 10) + 1 := by
          simp [List.length_cons]
          omega
        rw [e, List.drop_succ_cons]

/-- C4: saveState pushes through the sliding window pushSnap; a push onto
at most nine entries appends, a push onto ten entries evicts the oldest;
any sequence of more than ten pushes leaves exactly the most recent ten
snapshots in insertion order, and undo only ever shrinks the store (its
result is a sublist), so evicted snapshots are unreachable. -/
theorem history_cap_sliding_window :
    (∀ s : EditorState, (saveState s).history = pushSnap s.history s.canvas) ∧
    (∀ (h : List Content) (c : Content), h.length ≤ 9 → pushSnap h c = h ++ [c]) ∧
    (∀ (h : List Content) (c : Content), h.length = 10 → pushSnap h c = h.tail ++ [c]) ∧
    (∀ (h0 cs : List Content), 10 < cs.length →
        cs.foldl pushSnap h0 = cs.drop (cs.length - 10)) ∧
    (∀ s : EditorState, List.Sublist (handleUndo s).history s.history) := by
  refine ⟨fun s => rfl, ?_, ?_, ?_, ?_⟩
  · intro h c hle
    unfold pushSnap
    have e : h.length - 9 = 0 := by omega
    rw [e, List.drop_zero]
  · intro h c h10
    unfold pushSnap
    rw [h10, show (10 : ℕ) - 9 = 1 from rfl, List.drop_one]
  · intro h0 cs hlt
    exact foldl_pushSnap_cap cs h0 (by omega)
  · intro s
    unfold handleUndo
    split
    · exact List.Sublist.refl _
    · split <;> exact List.dropLast_sublist _

/-- Concrete instantiation of the history cap: pushing eleven snapshots
onto an empty store retains exactly the most recent ten. -/
theorem history_cap_witness :
    List.foldl pushSnap []
        [Content.image 0, Content.image 1, Content.image 2, Content.image 3,
         Content.image 4, Content.image 5, Content.image 6, Content.image 7,
         Content.image 8, Content.image 9, Content.image 10]
      = [Content.image 1, Content.image 2, Content.image 3, Content.image 4,
         Content.image 5, Content.image 6, Content.image 7, Content.image 8,
         Content.image 9, Content.image 10] := by
  have h := history_cap_sliding_window.2.2.2.1 []
      [Content.image 0, Content.image 1, Content.image 2, Content.image 3,
       Content.image 4, Content.image 5, Content.image 6, Content.image 7,
       Content.image 8, Content.image 9, Content.image 10] (by decide)
  simpa using h

/-- C6 counterexample: when serialization produces no payload, handleSave
makes no host call at all — no explicit error is signaled. -/
theorem export_failure_counterexample : handleSave none = [] := rfl

/-- C6 (amended): when serialization of the Canvas Surface produces no
payload, handleSave silently does nothing — it makes no host call, so in
particular it never signals an error and never closes the session; a
produced payload is delivered through onSave. -/
theorem export_silent_on_no_payload :
    handleSave none = [] ∧
    (∀ b : Blob, handleSave (some b) = [HostCall.onSave b]) ∧
    (∀ r : Option Blob,
        handleSave r = [] ∨ ∃ b, r = some b ∧ handleSave r = [HostCall.onSave b]) := by
  refine ⟨rfl, fun b => rfl, ?_⟩
  intro r
  cases r with
  | none => exact Or.inl rfl
  | some b => exact Or.inr ⟨b, rfl, rfl⟩

/-- C9 counterexample: a 10x10 image in a 100x70 viewport is left at
10x10 by the code, while the spec formula
scale = min(maxW/imgW, maxH/imgH) would upscale it to 70x70. -/
theorem canvas_fit_counterexample :
    fitSize 10 10 100 70 = (10, 10) ∧ specFitSize 10 10 100 70 = (70, 70) ∧
    fitSize 10 10 100 70 ≠ specFitSize 10 10 100 70 := by
  have h1 : fitSize 10 10 100 70 = (10, 10) := by
    unfold fitSize
    rw [if_neg (by norm_num)]
  have h2 : specFitSize 10 10 100 70 = (70, 70) := by
    unfold specFitSize
    norm_num [min_def]
  refine ⟨h1, h2, ?_⟩
  rw [h1, h2]
  norm_num [Prod.ext_iff]

/-- C9 (amended): the uniform scale min(maxW/imgW, maxH/imgH) is applied
only when the image overflows the viewport in some dimension, in which
case the canvas dimensions match the spec formula exactly; otherwise the
raw image dimensions are kept.  Aspect ratio is preserved in both cases. -/
theorem canvas_fit_overflow_only :
    (∀ w h mw mh : ℚ, (w > mw ∨ h > mh) →
        fitSize w h mw mh = specFitSize w h mw mh) ∧
    (∀ w h mw mh : ℚ, ¬(w > mw ∨ h > mh) → fitSize w h mw mh = (w, h)) ∧
    (∀ w h mw mh : ℚ,
        (fitSize w h mw mh).1 * h = (fitSize w h mw mh).2 * w) := by
  refine ⟨?_, ?_, ?_⟩
  · intro w h mw mh hc
    simp only [fitSize, specFitSize, if_pos hc]
  · intro w h mw mh hc
    simp only [fitSize, if_neg hc]
  · intro w h mw mh
    unfold fitSize
    split
    · dsimp only
      ring
    · dsimp only
      ring

/-- Concrete instantiation of the fit: a 200x100 image in a 100x70
viewport overflows, is scaled by min(1/2, 7/10) = 1/2, and lands at
100x50. -/
theorem canvas_fit_witness :
    fitSize 200 100 100 70 = specFitSize 200 100 100 70 ∧
    specFitSize 200 100 100 70 = (100, 50) :=
  ⟨canvas_fit_overflow_only.1 200 100 100 70 (Or.inl (by norm_num)),
   by unfold specFitSize; norm_num [min_def]⟩

lemma draw_frame (p : Point) (s : EditorState) :
    (draw p s).isDrawing = s.isDrawing ∧ (draw p s).history = s.history ∧
    (draw p s).activeTool = s.activeTool ∧ (draw p s).startPos = s.startPos ∧
    (draw p s).color = s.color := by
  rcases s with ⟨c, hist, d, sp, t, col, pa, cst⟩
  cases d <;> cases t <;> exact ⟨rfl, rfl, rfl, rfl, rfl⟩

lemma handleUndo_isDrawing (s : EditorState) :
    (handleUndo s).isDrawing = s.isDrawing := by
  unfold handleUndo
  split
  · rfl
  · split <;> rfl

lemma step_preserves_quiescence (s : EditorState) (e : Event)
    (h : s.isDrawing = false →
      s.history = [] ∨ s.history.getLast? = some s.canvas) :
    (step s e).isDrawing = false →
      (step s e).history = [] ∨
        (step s e).history.getLast? = some (step s e).canvas := by
  cases e with
  | load id =>
      intro _
      right
      simp [step, saveState, pushSnap, List.getLast?_concat]
  | down pos =>
      intro hq
      simp [step, startDrawing] at hq
  | move pos =>
      cases hd : s.isDrawing with
      | false =>
          have hds : draw pos s = s := by rw [draw, hd]; rfl
          intro _
          show (draw pos s).history = [] ∨
            (draw pos s).history.getLast? = some (draw pos s).canvas
          rw [hds]
          exact h hd
      | true =>
          intro hq
          have hx : (draw pos s).isDrawing = true := by
            rw [(draw_frame pos s).1, hd]
          rw [show (step s (Event.move pos)) = draw pos s from rfl, hx] at hq
          exact absurd hq (by simp)
  | up =>
      cases hd : s.isDrawing with
      | false =>
          have hds : stopDrawing s = s := by rw [stopDrawing, hd]; rfl
          intro _
          show (stopDrawing s).history = [] ∨
            (stopDrawing s).history.getLast? = some (stopDrawing s).canvas
          rw [hds]
          exact h hd
      | true =>
          intro _
          right
          have hds : stopDrawing s = saveState { s with isDrawing := false } := by
            rw [stopDrawing, hd]; rfl
          show (stopDrawing s).history.getLast? = some (stopDrawing s).canvas
          rw [hds]
          simp [saveState, pushSnap, List.getLast?_concat]
  | undo =>
      intro hq
      have hq2 : s.isDrawing = false := by
        rw [← handleUndo_isDrawing s]
        exact hq
      show (handleUndo s).history = [] ∨
        (handleUndo s).history.getLast? = some (handleUndo s).canvas
      unfold handleUndo
      split
      · exact h hq2
      · split
        · next p hp => right; exact hp
        · next hp => left; exact getLastNoneNil hp
  | setTool t =>
      intro hq
      exact h hq
  | setColor c =>
      intro hq
      exact h hq

lemma run_preserves_quiescence (es : List Event) :
    ∀ s : EditorState,
      (s.isDrawing = false →
        s.history = [] ∨ s.history.getLast? = some s.canvas) →
      ((run s es).isDrawing = false →
        (run s es).history = [] ∨
          (run s es).history.getLast? = some (run s es).canvas) := by
  induction es with
  | nil => intro s h; exact h
  | cons e t ih =>
      intro s h
      exact ih (step s e) (step_preserves_quiescence s e h)

/-- C1: quiescence invariant — for every sequence of input events from
the initial state, whenever no gesture is active and the History Store is
nonempty, the Canvas Surface pixel content equals the most recent
Snapshot, exactly.  This covers in particular the state right after every
gesture-end commit and right after every undo. -/
theorem quiescence_invariant (es : List Event) (snap : Content)
    (hq : (run initState es).isDrawing = false)
    (hs : (run initState es).history.getLast? = some snap) :
    (run initState es).canvas = snap := by
  have h0 : initState.isDrawing = false →
      initState.history = [] ∨ initState.history.getLast? = some initState.canvas := by
    intro _
    left
    rfl
  rcases run_preserves_quiescence es initState h0 hq with hnil | hlast
  · rw [hnil] at hs
    simp at hs
  · rw [hs] at hlast
    exact (Option.some.inj hlast).symm

/-- Concrete instantiation of the quiescence invariant: after loading an
image, drawing a pen stroke and releasing, the canvas equals the snapshot
on top of the store. -/
theorem quiescence_invariant_witness :
    (run initState
        [Event.load 0, Event.down ⟨1, 1⟩, Event.move ⟨2, 2⟩, Event.up]).canvas
      = Content.stroked (Content.image 0) [⟨1, 1⟩, ⟨2, 2⟩] "#FF0000" :=
  quiescence_invariant _ _ rfl rfl

/-- C10: a gesture-start immediately followed by a gesture-end, with no
move events, leaves the canvas pixels unchanged yet still pushes one more
snapshot — pixel-identical to the previous top — so a zero-movement tap
consumes one slot of the bounded history. -/
theorem tap_pushes_duplicate_snapshot (s : EditorState) (a : Point)
    (hh : s.history.getLast? = some s.canvas) :
    (run s [Event.down a, Event.up]).canvas = s.canvas ∧
    (run s [Event.down a, Event.up]).history = pushSnap s.history s.canvas ∧
    (run s [Event.down a, Event.up]).history.getLast? = some s.canvas ∧
    (run s [Event.down a, Event.up]).history.getLast? = s.history.getLast? ∧
    (run s [Event.down a, Event.up]).history.length
      = min s.history.length 9 + 1 := by
  have hrun : run s [Event.down a, Event.up]
      = saveState { startDrawing a s with isDrawing := false } := rfl
  have htop : (run s [Event.down a, Event.up]).history.getLast? = some s.canvas := by
    rw [hrun]
    simp [saveState, startDrawing, pushSnap, List.getLast?_concat]
  refine ⟨rfl, rfl, htop, ?_, ?_⟩
  · rw [htop, hh]
  · rw [hrun]
    simp [saveState, startDrawing, pushSnap, List.length_append, List.length_drop]
    omega

/-- Concrete instantiation of the tap behaviour on a quiescent one-entry
state. -/
theorem tap_pushes_duplicate_snapshot_witness :
    (run demoState [Event.down ⟨3, 4⟩, Event.up]).canvas = Content.image 0 ∧
    (run demoState [Event.down ⟨3, 4⟩, Event.up]).history
      = pushSnap [Content.image 0] (Content.image 0) ∧
    (run demoState [Event.down ⟨3, 4⟩, Event.up]).history.getLast?
      = some (Content.image 0) ∧
    (run demoState [Event.down ⟨3, 4⟩, Event.up]).history.getLast?
      = demoState.history.getLast? ∧
    (run demoState [Event.down ⟨3, 4⟩, Event.up]).history.length = min 1 9 + 1 :=
  tap_pushes_duplicate_snapshot demoState ⟨3, 4⟩ rfl

/-- C5 counterexample: in a state with an active gesture anchored at
(0,0), a further gesture-start at (5,5) is not ignored — it changes the
recorded anchor point and restarts the open path at the new position. -/
theorem nested_gesture_counterexample :
    gesturingState.isDrawing = true ∧
    gesturingState.startPos = ⟨0, 0⟩ ∧
    (startDrawing ⟨5, 5⟩ gesturingState).startPos = ⟨5, 5⟩ ∧
    (startDrawing ⟨5, 5⟩ gesturingState).startPos ≠ gesturingState.startPos ∧
    (startDrawing ⟨5, 5⟩ gesturingState).path ≠ gesturingState.path := by
  refine ⟨rfl, rfl, rfl, by decide, by decide⟩

/-- C5 (amended): a gesture-start while a gesture is already active is
not ignored: it re-records the anchor at the new position, restarts the
open path there and resets the stroke style to the active color, while
the machine stays Gesturing and canvas, history, tool and color are
untouched. -/
theorem nested_gesture_restarts_anchor (s : EditorState) (pos : Point)
    (hd : s.isDrawing = true) :
    (startDrawing pos s).isDrawing = true ∧
    (startDrawing pos s).startPos = pos ∧
    (startDrawing pos s).path = [pos] ∧
    (startDrawing pos s).canvas = s.canvas ∧
    (startDrawing pos s).history = s.history ∧
    (startDrawing pos s).activeTool = s.activeTool ∧
    (startDrawing pos s).color = s.color :=
  ⟨rfl, rfl, rfl, rfl, rfl, rfl, rfl⟩

/-- Concrete instantiation of the amended gesture-start behaviour. -/
theorem nested_gesture_witness :
    gesturingState.isDrawing = true ∧
    (startDrawing ⟨5, 5⟩ gesturingState).startPos = ⟨5, 5⟩ ∧
    (startDrawing ⟨5, 5⟩ gesturingState).path = [⟨5, 5⟩] :=
  ⟨rfl, (nested_gesture_restarts_anchor gesturingState ⟨5, 5⟩ rfl).2.1,
   (nested_gesture_restarts_anchor gesturingState ⟨5, 5⟩ rfl).2.2.1⟩

lemma shape_moves_run (snap : Content) :
    ∀ (ps : List Point) (p : Point) (s : EditorState),
      (s.activeTool = Tool.CIRCLE ∨ s.activeTool = Tool.ARROW) →
      s.isDrawing = true →
      s.history.getLast? = some snap →
      run s ((ps ++ [p]).map Event.move) =
        { s with canvas := previewShape s.activeTool snap s.startPos p s.color,
                 path := [], ctxStyle := s.color } := by
  intro ps
  induction ps with
  | nil =>
      intro p s ht hd hh
      show draw p s = _
      rcases ht with ht | ht <;>
        simp [draw, hd, ht, restoreBase, hh, previewShape]
  | cons q ps ih =>
      intro p s ht hd hh
      have hf := draw_frame q s
      have hstep : run s (((q :: ps) ++ [p]).map Event.move)
          = run (draw q s) ((ps ++ [p]).map Event.move) := rfl
      rw [hstep, ih p (draw q s) (by rw [hf.2.2.1]; exact ht)
        (by rw [hf.1]; exact hd) (by rw [hf.2.1]; exact hh)]
      rcases ht with ht | ht <;>
        simp [draw, hd, ht, restoreBase, hh, previewShape, EditorState.mk.injEq]

/-- C2: no-trail shape preview — starting a Circle or Arrow gesture on a
store whose most recent snapshot is snap and driving it through any
number of intermediate move frames before committing leaves the Canvas
Surface equal to snap composited with exactly one instance of the final
shape (computed from the anchor and the last point), and commits exactly
that content as the new most recent snapshot: no superposition of
intermediate previews survives. -/
theorem no_trail_preview (s : EditorState) (snap : Content) (a : Point)
    (ps : List Point) (p : Point)
    (ht : s.activeTool = Tool.CIRCLE ∨ s.activeTool = Tool.ARROW)
    (hh : s.history.getLast? = some snap) :
    (run s (Event.down a :: (ps ++ [p]).map Event.move ++ [Event.up])).canvas
      = previewShape s.activeTool snap a p s.color ∧
    (run s (Event.down a :: (ps ++ [p]).map Event.move ++ [Event.up])).history.getLast?
      = some (previewShape s.activeTool snap a p s.color) := by
  have h1 : run s (Event.down a :: (ps ++ [p]).map Event.move ++ [Event.up])
      = step (run (startDrawing a s) ((ps ++ [p]).map Event.move)) Event.up := by
    show run (startDrawing a s) ((ps ++ [p]).map Event.move ++ [Event.up]) = _
    rw [run, List.foldl_append]
    rfl
  have hmv := shape_moves_run snap ps p (startDrawing a s) ht rfl hh
  rw [h1, hmv]
  constructor
  · rfl
  · show (pushSnap _ _).getLast? = _
    rw [pushSnap, List.getLast?_concat]
    rfl

/-- Concrete instantiation of the no-trail property: a circle gesture
with one intermediate preview frame commits exactly one circle over the
loaded snapshot. -/
theorem no_trail_preview_witness :
    (run demoState
        (Event.down ⟨1, 1⟩ :: ([⟨3, 3⟩, ⟨5, 6⟩] : List Point).map Event.move
          ++ [Event.up])).canvas
      = previewShape Tool.CIRCLE (Content.image 0) ⟨1, 1⟩ ⟨5, 6⟩ "#FF0000" ∧
    (run demoState
        (Event.down ⟨1, 1⟩ :: ([⟨3, 3⟩, ⟨5, 6⟩] : List Point).map Event.move
          ++ [Event.up])).history.getLast?
      = some (previewShape Tool.CIRCLE (Content.image 0) ⟨1, 1⟩ ⟨5, 6⟩ "#FF0000") :=
  no_trail_preview demoState (Content.image 0) ⟨1, 1⟩ [⟨3, 3⟩] ⟨5, 6⟩
    (Or.inl rfl) rfl

/-- C7: arrow geometry — the two chevron segments start at the current
point, have fixed length 15 (headLen) and terminate at exactly -30 and
+30 degrees (pi/6) from the reversed line direction, i.e. from the base
angle atan2(dy, dx) plus pi; concretely, for anchor (0,0) and endpoint
(100,0) the base angle is 0 and the chevrons end at
(100 - 15*sqrt(3)/2, 15/2) and (100 - 15*sqrt(3)/2, -15/2). -/
theorem arrow_chevron_geometry :
    (∀ s c : RPoint,
        chevron1 s c
          = ⟨c.x + headLen * Real.cos ((arrowAngle s c + Real.pi) - Real.pi / 6),
             c.y + headLen * Real.sin ((arrowAngle s c + Real.pi) - Real.pi / 6)⟩ ∧
        chevron2 s c
          = ⟨c.x + headLen * Real.cos ((arrowAngle s c + Real.pi) + Real.pi / 6),
             c.y + headLen * Real.sin ((arrowAngle s c + Real.pi) + Real.pi / 6)⟩ ∧
        ((chevron1 s c).x - c.x) ^ 2 + ((chevron1 s c).y - c.y) ^ 2
          = headLen ^ 2 ∧
        ((chevron2 s c).x - c.x) ^ 2 + ((chevron2 s c).y - c.y) ^ 2
          = headLen ^ 2) ∧
    arrowAngle ⟨0, 0⟩ ⟨100, 0⟩ = 0 ∧
    chevron1 ⟨0, 0⟩ ⟨100, 0⟩ = ⟨100 - 15 * (Real.sqrt 3 / 2), 15 / 2⟩ ∧
    chevron2 ⟨0, 0⟩ ⟨100, 0⟩ = ⟨100 - 15 * (Real.sqrt 3 / 2), -(15 / 2)⟩ := by
  have hrev : ∀ x : ℝ, Real.cos (x + Real.pi) = -Real.cos x := fun x => by
    rw [Real.cos_add, Real.cos_pi, Real.sin_pi]; ring
  have hrevs : ∀ x : ℝ, Real.sin (x + Real.pi) = -Real.sin x := fun x => by
    rw [Real.sin_add, Real.cos_pi, Real.sin_pi]; ring
  have hang : arrowAngle ⟨0, 0⟩ ⟨100, 0⟩ = 0 := by
    show Complex.arg ⟨(100 : ℝ) - 0, (0 : ℝ) - 0⟩ = 0
    have e : (⟨(100 : ℝ) - 0, (0 : ℝ) - 0⟩ : ℂ) = ((100 : ℝ) : ℂ) := by
      apply Complex.ext <;> simp
    rw [e, Complex.arg_ofReal_of_nonneg (by norm_num : (0 : ℝ) ≤ 100)]
  refine ⟨?_, hang, ?_, ?_⟩
  · intro s c
    refine ⟨?_, ?_, ?_, ?_⟩
    · have e : (arrowAngle s c + Real.pi) - Real.pi / 6
          = (arrowAngle s c - Real.pi / 6) + Real.pi := by ring
      unfold chevron1
      rw [e, hrev, hrevs, RPoint.mk.injEq]
      constructor <;> ring
    · have e : (arrowAngle s c + Real.pi) + Real.pi / 6
          = (arrowAngle s c + Real.pi / 6) + Real.pi := by ring
      unfold chevron2
      rw [e, hrev, hrevs, RPoint.mk.injEq]
      constructor <;> ring
    · unfold chevron1 headLen
      linear_combination
        (225 : ℝ) * Real.sin_sq_add_cos_sq (arrowAngle s c - Real.pi / 6)
    · unfold chevron2 headLen
      linear_combination
        (225 : ℝ) * Real.sin_sq_add_cos_sq (arrowAngle s c + Real.pi / 6)
  · unfold chevron1
    rw [hang]
    have e : (0 : ℝ) - Real.pi / 6 = -(Real.pi / 6) := by ring
    rw [e, Real.cos_neg, Real.sin_neg, Real.cos_pi_div_six, Real.sin_pi_div_six,
        RPoint.mk.injEq]
    constructor <;> norm_num [headLen]
  · unfold chevron2
    rw [hang, zero_add, Real.cos_pi_div_six, Real.sin_pi_div_six,
        RPoint.mk.injEq]
    constructor <;> norm_num [headLen]

/-- C8: circle geometry — the circle is centered at the anchor, and its
radius is exactly the Euclidean distance between anchor and current
point (the distance of the corresponding points of the Euclidean plane,
realized as complex numbers); concretely, anchor (10,10) and endpoint
(10,20) give a circle of radius 10 centered at (10,10). -/
theorem circle_geometry :
    (∀ s c : RPoint, circleCenter s c = s) ∧
    (∀ s c : RPoint,
        circleRadius s c = dist (⟨s.x, s.y⟩ : ℂ) (⟨c.x, c.y⟩ : ℂ)) ∧
    circleRadius ⟨10, 10⟩ ⟨10, 20⟩ = 10 ∧
    circleCenter ⟨10, 10⟩ ⟨10, 20⟩ = ⟨10, 10⟩ := by
  refine ⟨fun s c => rfl, ?_, ?_, rfl⟩
  · intro s c
    rw [Complex.dist_eq, Complex.abs_apply, Complex.normSq_apply]
    unfold circleRadius
    congr 1
    simp [Complex.sub_re, Complex.sub_im]
    ring
  · unfold circleRadius
    show Real.sqrt (((10 : ℝ) - 10) ^ 2 + ((20 : ℝ) - 10) ^ 2) = 10
    rw [show ((10 : ℝ) - 10) ^ 2 + ((20 : ℝ) - 10) ^ 2 = 10 ^ 2 by norm_num,
        Real.sqrt_sq (by norm_num : (0 : ℝ) ≤ 10)]

end PhotoEditor
